import Mathlib

/-!
Verification of the Stroke-Guesser game (src/index.tsx).

The application is a single React component. Its state hooks become the
fields of `GameState`; each event handler becomes a pure function
`GameState → GameState` (or to a product when the handler also produces
logs). Handlers that the UI only exposes through a control with a
`disabled` attribute additionally get a click-level wrapper
(`clickCheckGuess`, `clickClearDrawing`, `clickSetGuess`) whose guard is
the `disabled` condition of the control: clicking a disabled control invokes
nothing. JavaScript numbers carrying integer values are embedded as `Int`;
the value of `Math.random()` (a float in [0,1)) is embedded as a rational
parameter `r` with `0 ≤ r < 1`. Canvas 2D calls are embedded as a list of
`CanvasOp` commands.
-/

namespace StrokeGuesser

/-- A recorded pointer sample in canvas-local coordinates (src/index.tsx line 4). -/
structure Point where
  x : Int
  y : Int
deriving DecidableEq, Repr

/-- The feedback record: message text and a type tag that is one of
"hint", "success" or the empty string (src/index.tsx line 42). -/
structure Feedback where
  message : String
  type : String
deriving DecidableEq, Repr

/-- MIN_STROKE constant (src/index.tsx line 6). -/
def MIN_STROKE : Int := 2

/-- MAX_STROKE constant (src/index.tsx line 7). -/
def MAX_STROKE : Int := 50

/-- MAX_GUESSES constant (src/index.tsx line 8). -/
def MAX_GUESSES : Int := 3

/-- The React state hooks of the App component, gathered into one record
(src/index.tsx lines 40-50). -/
structure GameState where
  targetStrokeWidth : Int
  guessStrokeWidth : Int
  feedback : Feedback
  isRoundOver : Bool
  guessesLeft : Int
  paths : List (List Point)
  isDrawing : Bool
  hasDrawnInRound : Bool
  winCount : Int
deriving DecidableEq, Repr

/-- startNewRound (src/index.tsx lines 54-66). The argument `r` is the
value returned by Math.random(), a number in [0,1) embedded as a rational.
The new target is Math.floor(r * (MAX_STROKE - MIN_STROKE + 1)) + MIN_STROKE
and the guess resets to Math.floor((MIN_STROKE + MAX_STROKE) / 2), which for
nonnegative operands is integer division. -/
def startNewRound (r : ℚ) (s : GameState) : GameState :=
  { s with
    paths := []
    isRoundOver := false
    feedback := { message := "", type := "" }
    hasDrawnInRound := false
    guessesLeft := MAX_GUESSES
    targetStrokeWidth := ⌊r * ((MAX_STROKE : ℚ) - (MIN_STROKE : ℚ) + 1)⌋ + MIN_STROKE
    guessStrokeWidth := (MIN_STROKE + MAX_STROKE) / 2 }

/-- handleClearDrawing (src/index.tsx lines 139-142): unconditionally
empties the paths and resets the has-drawn flag. -/
def handleClearDrawing (s : GameState) : GameState :=
  { s with paths := [], hasDrawnInRound := false }

/-- The Clear controls are disabled when the drawing is empty or the round
is over (src/index.tsx lines 296 and 333), so a click reaches
handleClearDrawing only otherwise. -/
def clickClearDrawing (s : GameState) : GameState :=
  if s.paths.length = 0 ∨ s.isRoundOver = true then s
  else handleClearDrawing s

/-- handleCheckGuess (src/index.tsx lines 144-167). -/
def handleCheckGuess (s : GameState) : GameState :=
  let diff := |s.guessStrokeWidth - s.targetStrokeWidth|
  if s.guessStrokeWidth = s.targetStrokeWidth then
    { s with
      feedback := { message := "You got it! It was " ++ toString s.targetStrokeWidth ++ "px."
                    type := "success" }
      isRoundOver := true
      winCount := s.winCount + 1 }
  else
    let newGuessesLeft := s.guessesLeft - 1
    if newGuessesLeft = 0 then
      { s with
        guessesLeft := newGuessesLeft
        feedback := { message := "Out of guesses! The answer was " ++
                        toString s.targetStrokeWidth ++ "px."
                      type := "hint" }
        isRoundOver := true }
    else if s.guessStrokeWidth > s.targetStrokeWidth then
      { s with
        guessesLeft := newGuessesLeft
        feedback := { message := if diff > 10 then "Way too thick!" else "A little too thick."
                      type := "hint" } }
    else
      { s with
        guessesLeft := newGuessesLeft
        feedback := { message := if diff > 10 then "Way too thin!" else "A little too thin."
                      type := "hint" } }

/-- The Check Guess button is disabled when the round is over, nothing has
been drawn this round, or no guesses are left (src/index.tsx line 330), so
a click reaches handleCheckGuess only otherwise. -/
def clickCheckGuess (s : GameState) : GameState :=
  if s.isRoundOver = true ∨ s.hasDrawnInRound = false ∨ s.guessesLeft = 0 then s
  else handleCheckGuess s

/-- The guess slider writes guessStrokeWidth and is disabled when the round
is over (src/index.tsx lines 316-317). -/
def clickSetGuess (v : Int) (s : GameState) : GameState :=
  if s.isRoundOver = true then s else { s with guessStrokeWidth := v }

/-- handlePointerDown (src/index.tsx lines 109-119): ignored when the round
is over or a drag is active; otherwise starts a drag and appends a fresh
one-point stroke. -/
def handlePointerDown (point : Point) (s : GameState) : GameState :=
  if s.isRoundOver = true ∨ s.isDrawing = true then s
  else { s with isDrawing := true, paths := s.paths ++ [[point]], hasDrawnInRound := true }

/-- The setPaths updater inside handlePointerMove (src/index.tsx lines
124-130): an empty list is returned unchanged; otherwise the list is copied
and its last stroke is replaced by itself with the new point appended. -/
def movePaths (prevPaths : List (List Point)) (point : Point) : List (List Point) :=
  match prevPaths.getLast? with
  | none => []
  | some lastPath => prevPaths.set (prevPaths.length - 1) (lastPath ++ [point])

/-- handlePointerMove (src/index.tsx lines 121-131): ignored unless a drag
is active and the round is not over. -/
def handlePointerMove (point : Point) (s : GameState) : GameState :=
  if s.isDrawing = false ∨ s.isRoundOver = true then s
  else { s with paths := movePaths s.paths point }

/-- handlePointerUp (src/index.tsx lines 133-137): ends the active drag. -/
def handlePointerUp (s : GameState) : GameState :=
  if s.isDrawing = false then s else { s with isDrawing := false }

/-- The external conditions handleExportDrawing can meet: whether the canvas
ref and 2D context exist, whether toBlob produces a blob, whether the Web
Share API accepts files, and how the share promise resolves. -/
structure ExportEnv where
  hasCanvas : Bool
  hasCtx : Bool
  blobOk : Bool
  canShareFiles : Bool
  shareAborted : Bool
  shareFails : Bool
deriving DecidableEq, Repr

/-- handleExportDrawing (src/index.tsx lines 169-236), restricted to its
observable effects on game state: the result is the (unchanged) state,
the console.error log lines emitted, and whether a user-visible error was
raised. Every guard and failure branch of the source returns without
touching any state hook, and no branch alerts the user. -/
def handleExportDrawing (env : ExportEnv) (s : GameState) : GameState × List String × Bool :=
  if env.hasCanvas = false ∨ s.paths.length = 0 then (s, [], false)
  else if env.hasCtx = false then (s, [], false)
  else if env.blobOk = false then (s, ["Failed to create blob from canvas"], false)
  else if env.canShareFiles = true then
    if env.shareAborted = true then (s, [], false)
    else if env.shareFails = true then (s, ["Share API error:"], false)
    else (s, [], false)
  else (s, [], false)

/-- The user-triggerable operations of the component, as dispatched by the
UI: button clicks go through the disabled guards, pointer events go to the
handlers (which carry their own guards). -/
inductive Op where
  | newRound (r : ℚ)
  | setGuess (v : Int)
  | clearDrawing
  | checkGuess
  | exportDrawing (env : ExportEnv)
  | pointerDown (p : Point)
  | pointerMove (p : Point)
  | pointerUp

/-- One user operation applied to the state. -/
def step : Op → GameState → GameState
  | Op.newRound r, s => startNewRound r s
  | Op.setGuess v, s => clickSetGuess v s
  | Op.clearDrawing, s => clickClearDrawing s
  | Op.checkGuess, s => clickCheckGuess s
  | Op.exportDrawing env, s => (handleExportDrawing env s).1
  | Op.pointerDown p, s => handlePointerDown p s
  | Op.pointerMove p, s => handlePointerMove p s
  | Op.pointerUp, s => handlePointerUp s

/-- The canvas 2D commands issued by drawPaths, in order. -/
inductive CanvasOp where
  | clearRect
  | setStrokeStyle (color : String)
  | setLineWidth (w : Int)
  | setLineCap (cap : String)
  | setLineJoin (join : String)
  | beginPath
  | moveTo (p : Point)
  | lineTo (p : Point)
  | stroke
deriving DecidableEq, Repr

/-- Whether a command actually draws or builds a path, as opposed to
clearing the surface or setting style attributes. -/
def CanvasOp.isPathCmd : CanvasOp → Bool
  | CanvasOp.beginPath => true
  | CanvasOp.moveTo _ => true
  | CanvasOp.lineTo _ => true
  | CanvasOp.stroke => true
  | _ => false

/-- The loop body of drawPaths for one path (src/index.tsx lines 24-33):
paths with fewer than 2 points are skipped; otherwise beginPath, moveTo the
first point, lineTo each later point in order, stroke. -/
def strokeOps : List Point → List CanvasOp
  | [] => []
  | [_] => []
  | p0 :: p1 :: rest =>
      CanvasOp.beginPath :: CanvasOp.moveTo p0 ::
        ((p1 :: rest).map CanvasOp.lineTo ++ [CanvasOp.stroke])

/-- drawPaths (src/index.tsx lines 11-34) as the list of canvas commands it
issues: clearRect first, an early return on an empty path list, then the
fixed style settings and the per-path drawing loop. -/
def drawPaths (paths : List (List Point)) (strokeWidth : Int) : List CanvasOp :=
  CanvasOp.clearRect ::
    (if paths.length = 0 then []
     else
       CanvasOp.setStrokeStyle "#0f62fe" ::
       CanvasOp.setLineWidth strokeWidth ::
       CanvasOp.setLineCap "round" ::
       CanvasOp.setLineJoin "round" ::
       paths.flatMap strokeOps)

/-- A mid-round state whose guess equals the target. -/
def sWin : GameState :=
  { targetStrokeWidth := 26, guessStrokeWidth := 26,
    feedback := { message := "", type := "" }, isRoundOver := false,
    guessesLeft := 3, paths := [[{ x := 0, y := 0 }, { x := 1, y := 1 }]],
    isDrawing := false, hasDrawnInRound := true, winCount := 0 }

/-- A mid-round state with guess 30 against target 10. -/
def sTooThick : GameState :=
  { targetStrokeWidth := 10, guessStrokeWidth := 30,
    feedback := { message := "", type := "" }, isRoundOver := false,
    guessesLeft := 3, paths := [[{ x := 0, y := 0 }, { x := 1, y := 1 }]],
    isDrawing := false, hasDrawnInRound := true, winCount := 0 }

/-- A finished-round state that still holds a nonempty drawing. -/
def sOverDrawn : GameState :=
  { targetStrokeWidth := 26, guessStrokeWidth := 30,
    feedback := { message := "", type := "" }, isRoundOver := true,
    guessesLeft := 0, paths := [[{ x := 0, y := 0 }, { x := 1, y := 1 }]],
    isDrawing := false, hasDrawnInRound := true, winCount := 0 }

/-- A state in the middle of an active drag with a one-point stroke. -/
def sDrag : GameState :=
  { targetStrokeWidth := 26, guessStrokeWidth := 26,
    feedback := { message := "", type := "" }, isRoundOver := false,
    guessesLeft := 3, paths := [[{ x := 0, y := 0 }]],
    isDrawing := true, hasDrawnInRound := true, winCount := 0 }

/-- Claim C1: when the guess equals the target, handleCheckGuess sets
success feedback whose message contains the exact target value, sets
isRoundOver, increments winCount by exactly 1, and leaves guessesLeft
untouched, whatever its current value. -/
theorem checkGuess_correct_success (s : GameState)
    (h : s.guessStrokeWidth = s.targetStrokeWidth) :
    (handleCheckGuess s).feedback.type = "success" ∧
    (∃ pre post, (handleCheckGuess s).feedback.message =
        pre ++ toString s.targetStrokeWidth ++ post) ∧
    (handleCheckGuess s).isRoundOver = true ∧
    (handleCheckGuess s).winCount = s.winCount + 1 ∧
    (handleCheckGuess s).guessesLeft = s.guessesLeft := by
  simp only [handleCheckGuess, if_pos h]
  exact ⟨by trivial, ⟨"You got it! It was ", "px.", by trivial⟩, by trivial, by trivial, by trivial⟩

/-- Claim C1 witness: the conclusion at the concrete state sWin. -/
theorem checkGuess_correct_success_witness :
    (handleCheckGuess sWin).feedback.type = "success" ∧
    (∃ pre post, (handleCheckGuess sWin).feedback.message =
        pre ++ toString sWin.targetStrokeWidth ++ post) ∧
    (handleCheckGuess sWin).isRoundOver = true ∧
    (handleCheckGuess sWin).winCount = sWin.winCount + 1 ∧
    (handleCheckGuess sWin).guessesLeft = sWin.guessesLeft :=
  checkGuess_correct_success sWin rfl

/-- Claim C2 counterexample: at guess 30 against target 10 the code emits
the message "Way too thick!" with an exclamation mark, not the
"Way too thick." the claim quotes. -/
theorem checkGuess_message_counterexample :
    sTooThick.guessStrokeWidth = 30 ∧ sTooThick.targetStrokeWidth = 10 ∧
    (handleCheckGuess sTooThick).feedback.message ≠ "Way too thick." ∧
    (handleCheckGuess sTooThick).feedback.message = "Way too thick!" := by
  refine ⟨rfl, rfl, ?_, rfl⟩
  decide

/-- Claim C2 as amended: a wrong guess decrements guessesLeft by exactly 1;
if that reaches 0 the round ends with a hint revealing the target,
otherwise the hint direction follows the sign of guess minus target and the
magnitude tier is "Way too thick!" or "Way too thin!" when the absolute
difference exceeds 10 and "A little too thick." or "A little too thin."
otherwise. -/
theorem checkGuess_wrong_spec (s : GameState)
    (h : s.guessStrokeWidth ≠ s.targetStrokeWidth) :
    (handleCheckGuess s).guessesLeft = s.guessesLeft - 1 ∧
    (s.guessesLeft - 1 = 0 →
      (handleCheckGuess s).isRoundOver = true ∧
      (handleCheckGuess s).feedback.type = "hint" ∧
      ∃ pre post, (handleCheckGuess s).feedback.message =
          pre ++ toString s.targetStrokeWidth ++ post) ∧
    (s.guessesLeft - 1 ≠ 0 →
      (handleCheckGuess s).feedback.type = "hint" ∧
      (handleCheckGuess s).isRoundOver = s.isRoundOver ∧
      (s.guessStrokeWidth > s.targetStrokeWidth →
        (handleCheckGuess s).feedback.message =
          if |s.guessStrokeWidth - s.targetStrokeWidth| > 10
          then "Way too thick!" else "A little too thick.") ∧
      (s.guessStrokeWidth < s.targetStrokeWidth →
        (handleCheckGuess s).feedback.message =
          if |s.guessStrokeWidth - s.targetStrokeWidth| > 10
          then "Way too thin!" else "A little too thin.")) := by
  by_cases h0 : s.guessesLeft - 1 = 0
  · refine ⟨?_, fun _ => ?_, fun hc => absurd h0 hc⟩
    · simp only [handleCheckGuess, if_neg h, if_pos h0]
    · simp only [handleCheckGuess, if_neg h, if_pos h0]
      exact ⟨by trivial, by trivial, "Out of guesses! The answer was ", "px.", by trivial⟩
  · by_cases hgt : s.guessStrokeWidth > s.targetStrokeWidth
    · refine ⟨?_, fun hc => absurd hc h0, fun _ => ⟨?_, ?_, fun _ => ?_, fun hlt => ?_⟩⟩
      · simp only [handleCheckGuess, if_neg h, if_neg h0, if_pos hgt]
      · simp only [handleCheckGuess, if_neg h, if_neg h0, if_pos hgt]
      · simp only [handleCheckGuess, if_neg h, if_neg h0, if_pos hgt]
      · simp only [handleCheckGuess, if_neg h, if_neg h0, if_pos hgt]
      · exact absurd hlt (not_lt.mpr (le_of_lt hgt))
    · refine ⟨?_, fun hc => absurd hc h0, fun _ => ⟨?_, ?_, fun hgt2 => absurd hgt2 hgt, fun _ => ?_⟩⟩
      · simp only [handleCheckGuess, if_neg h, if_neg h0, if_neg hgt]
      · simp only [handleCheckGuess, if_neg h, if_neg h0, if_neg hgt]
      · simp only [handleCheckGuess, if_neg h, if_neg h0, if_neg hgt]
      · simp only [handleCheckGuess, if_neg h, if_neg h0, if_neg hgt]

/-- Claim C2 witness: the amended conclusion at the concrete state
sTooThick. -/
theorem checkGuess_wrong_spec_witness :
    (handleCheckGuess sTooThick).guessesLeft = sTooThick.guessesLeft - 1 ∧
    (sTooThick.guessesLeft - 1 = 0 →
      (handleCheckGuess sTooThick).isRoundOver = true ∧
      (handleCheckGuess sTooThick).feedback.type = "hint" ∧
      ∃ pre post, (handleCheckGuess sTooThick).feedback.message =
          pre ++ toString sTooThick.targetStrokeWidth ++ post) ∧
    (sTooThick.guessesLeft - 1 ≠ 0 →
      (handleCheckGuess sTooThick).feedback.type = "hint" ∧
      (handleCheckGuess sTooThick).isRoundOver = sTooThick.isRoundOver ∧
      (sTooThick.guessStrokeWidth > sTooThick.targetStrokeWidth →
        (handleCheckGuess sTooThick).feedback.message =
          if |sTooThick.guessStrokeWidth - sTooThick.targetStrokeWidth| > 10
          then "Way too thick!" else "A little too thick.") ∧
      (sTooThick.guessStrokeWidth < sTooThick.targetStrokeWidth →
        (handleCheckGuess sTooThick).feedback.message =
          if |sTooThick.guessStrokeWidth - sTooThick.targetStrokeWidth| > 10
          then "Way too thin!" else "A little too thin.")) :=
  checkGuess_wrong_spec sTooThick (by decide)

/-- Claim C3: for any random draw r in [0,1), startNewRound resets the
drawing, flags, feedback, counter and guess (to 26, the midpoint of
[MIN_STROKE, MAX_STROKE]), places the target inside
[MIN_STROKE, MAX_STROKE], and every integer of that range is produced by
some admissible r; being a total function it never fails. -/
theorem startNewRound_spec (r : ℚ) (s : GameState) (h0 : 0 ≤ r) (h1 : r < 1) :
    (startNewRound r s).paths = [] ∧
    (startNewRound r s).isRoundOver = false ∧
    (startNewRound r s).feedback = { message := "", type := "" } ∧
    (startNewRound r s).hasDrawnInRound = false ∧
    (startNewRound r s).guessesLeft = MAX_GUESSES ∧
    (startNewRound r s).guessStrokeWidth = (MIN_STROKE + MAX_STROKE) / 2 ∧
    MIN_STROKE ≤ (startNewRound r s).targetStrokeWidth ∧
    (startNewRound r s).targetStrokeWidth ≤ MAX_STROKE ∧
    (∀ t : ℤ, MIN_STROKE ≤ t → t ≤ MAX_STROKE →
      ∃ q : ℚ, 0 ≤ q ∧ q < 1 ∧ (startNewRound q s).targetStrokeWidth = t) := by
  refine ⟨rfl, rfl, rfl, rfl, rfl, rfl, ?_, ?_, ?_⟩
  · show MIN_STROKE ≤ ⌊r * ((MAX_STROKE : ℚ) - (MIN_STROKE : ℚ) + 1)⌋ + MIN_STROKE
    have hnn : (0 : ℚ) ≤ r * ((MAX_STROKE : ℚ) - (MIN_STROKE : ℚ) + 1) := by
      have : (0 : ℚ) ≤ (MAX_STROKE : ℚ) - (MIN_STROKE : ℚ) + 1 := by
        norm_num [MIN_STROKE, MAX_STROKE]
      exact mul_nonneg h0 this
    have := Int.floor_nonneg.mpr hnn
    omega
  · show ⌊r * ((MAX_STROKE : ℚ) - (MIN_STROKE : ℚ) + 1)⌋ + MIN_STROKE ≤ MAX_STROKE
    have hlt : r * ((MAX_STROKE : ℚ) - (MIN_STROKE : ℚ) + 1) <
        ((MAX_STROKE - MIN_STROKE + 1 : ℤ) : ℚ) := by
      push_cast
      norm_num [MIN_STROKE, MAX_STROKE]
      nlinarith
    have := Int.floor_lt.mpr hlt
    simp only [MIN_STROKE, MAX_STROKE] at this ⊢
    omega
  · intro t ht1 ht2
    simp only [MIN_STROKE, MAX_STROKE] at ht1 ht2
    refine ⟨((t : ℚ) - 2) / 49, ?_, ?_, ?_⟩
    · apply div_nonneg _ (by norm_num)
      have : (2 : ℚ) ≤ (t : ℚ) := by exact_mod_cast ht1
      linarith
    · rw [div_lt_one (by norm_num)]
      have : (t : ℚ) ≤ 50 := by exact_mod_cast ht2
      linarith
    · show ⌊((t : ℚ) - 2) / 49 * ((MAX_STROKE : ℚ) - (MIN_STROKE : ℚ) + 1)⌋ + MIN_STROKE = t
      have hval : ((t : ℚ) - 2) / 49 * ((MAX_STROKE : ℚ) - (MIN_STROKE : ℚ) + 1) =
          ((t - 2 : ℤ) : ℚ) := by
        simp only [MIN_STROKE, MAX_STROKE]
        push_cast
        norm_num
      rw [hval, Int.floor_intCast]
      simp only [MIN_STROKE]
      omega

/-- Claim C3 witness: the conclusion at the concrete draw r = 0 and the
concrete state sOverDrawn. -/
theorem startNewRound_spec_witness :
    (startNewRound 0 sOverDrawn).paths = [] ∧
    (startNewRound 0 sOverDrawn).isRoundOver = false ∧
    (startNewRound 0 sOverDrawn).feedback = { message := "", type := "" } ∧
    (startNewRound 0 sOverDrawn).hasDrawnInRound = false ∧
    (startNewRound 0 sOverDrawn).guessesLeft = MAX_GUESSES ∧
    (startNewRound 0 sOverDrawn).guessStrokeWidth = (MIN_STROKE + MAX_STROKE) / 2 ∧
    MIN_STROKE ≤ (startNewRound 0 sOverDrawn).targetStrokeWidth ∧
    (startNewRound 0 sOverDrawn).targetStrokeWidth ≤ MAX_STROKE ∧
    (∀ t : ℤ, MIN_STROKE ≤ t → t ≤ MAX_STROKE →
      ∃ q : ℚ, 0 ≤ q ∧ q < 1 ∧ (startNewRound q sOverDrawn).targetStrokeWidth = t) :=
  startNewRound_spec 0 sOverDrawn (by norm_num) (by norm_num)

/-- Claim C5 counterexample: on a round-over state with a nonempty drawing
the handler does not reject; it empties the drawing, so the claim that it
leaves the Drawing unchanged when isOver is true is false. -/
theorem clearDrawing_claim_counterexample :
    sOverDrawn.isRoundOver = true ∧
    (handleClearDrawing sOverDrawn).paths ≠ sOverDrawn.paths := by
  exact ⟨rfl, by decide⟩

/-- Claim C5 as amended: the clearDrawing handler itself performs no isOver
check and unconditionally empties the Drawing and resets the has-drawn
flag, leaving every other field unchanged; rejection when the round is over
happens one level up, where the Clear control is disabled, so the
click-level operation leaves the state unchanged whenever isOver is true. -/
theorem clearDrawing_spec (s : GameState) :
    (handleClearDrawing s).paths = [] ∧
    (handleClearDrawing s).hasDrawnInRound = false ∧
    (handleClearDrawing s).isRoundOver = s.isRoundOver ∧
    (handleClearDrawing s).feedback = s.feedback ∧
    (handleClearDrawing s).guessesLeft = s.guessesLeft ∧
    (handleClearDrawing s).winCount = s.winCount ∧
    (handleClearDrawing s).targetStrokeWidth = s.targetStrokeWidth ∧
    (handleClearDrawing s).guessStrokeWidth = s.guessStrokeWidth ∧
    (s.isRoundOver = true → clickClearDrawing s = s) := by
  refine ⟨rfl, rfl, rfl, rfl, rfl, rfl, rfl, rfl, fun hO => ?_⟩
  simp [clickClearDrawing, hO]

/-- Claim C5 witness: the amended conclusion at the concrete state
sOverDrawn, with the round-over hypothesis discharged. -/
theorem clearDrawing_spec_witness :
    (handleClearDrawing sOverDrawn).paths = [] ∧
    (handleClearDrawing sOverDrawn).hasDrawnInRound = false ∧
    (handleClearDrawing sOverDrawn).isRoundOver = sOverDrawn.isRoundOver ∧
    (handleClearDrawing sOverDrawn).feedback = sOverDrawn.feedback ∧
    (handleClearDrawing sOverDrawn).guessesLeft = sOverDrawn.guessesLeft ∧
    (handleClearDrawing sOverDrawn).winCount = sOverDrawn.winCount ∧
    (handleClearDrawing sOverDrawn).targetStrokeWidth = sOverDrawn.targetStrokeWidth ∧
    (handleClearDrawing sOverDrawn).guessStrokeWidth = sOverDrawn.guessStrokeWidth ∧
    (sOverDrawn.isRoundOver = true → clickClearDrawing sOverDrawn = sOverDrawn) :=
  clearDrawing_spec sOverDrawn

/-- Claim C6: a click on Check Guess is rejected without any state change
whenever the round is over or nothing has been drawn this round; in
particular a click immediately after clearDrawing is always rejected. -/
theorem checkGuess_requires_drawing (s : GameState)
    (h : s.isRoundOver = true ∨ s.hasDrawnInRound = false) :
    clickCheckGuess s = s ∧
    clickCheckGuess (handleClearDrawing s) = handleClearDrawing s := by
  constructor
  · rcases h with h | h
    · simp only [clickCheckGuess]
      rw [if_pos (Or.inl h)]
    · simp only [clickCheckGuess]
      rw [if_pos (Or.inr (Or.inl h))]
  · have hd : (handleClearDrawing s).hasDrawnInRound = false := rfl
    simp only [clickCheckGuess]
    rw [if_pos (Or.inr (Or.inl hd))]

/-- Claim C6 witness: the conclusion at the concrete round-over state
sOverDrawn. -/
theorem checkGuess_requires_drawing_witness :
    clickCheckGuess sOverDrawn = sOverDrawn ∧
    clickCheckGuess (handleClearDrawing sOverDrawn) = handleClearDrawing sOverDrawn :=
  checkGuess_requires_drawing sOverDrawn (Or.inl rfl)

/-- Every command emitted for a single path is a path-building command. -/
lemma strokeOps_isPathCmd (path : List Point) (c : CanvasOp) (hc : c ∈ strokeOps path) :
    c.isPathCmd = true := by
  match path with
  | [] => simp [strokeOps] at hc
  | [_] => simp [strokeOps] at hc
  | p0 :: p1 :: rest =>
      simp only [strokeOps, List.mem_cons, List.mem_append, List.mem_map,
        List.mem_singleton] at hc
      rcases hc with rfl | rfl | ⟨a, _, rfl⟩ | rfl | hc
      · rfl
      · rfl
      · rfl
      · rfl
      · simp at hc

/-- Setting the last position of a nonempty list replaces its last
element. -/
lemma set_last_eq {α : Type} (l : List α) (v : α) (h : l ≠ []) :
    l.set (l.length - 1) v = l.dropLast ++ [v] := by
  induction l with
  | nil => exact absurd rfl h
  | cons a t ih =>
      cases t with
      | nil => rfl
      | cons b t2 =>
          have ih2 := ih (by simp)
          simp only [List.length_cons, Nat.add_sub_cancel] at ih2 ⊢
          show a :: (b :: t2).set ((b :: t2).length - 1) v = (a :: b :: t2).dropLast ++ [v]
          rw [List.length_cons, Nat.add_sub_cancel, ih2]
          rfl

/-- The pointer-move path update on a nonempty list appends the point to
the last stroke. -/
lemma movePaths_eq (ps : List (List Point)) (lastPath : List Point) (p : Point)
    (h : ps.getLast? = some lastPath) :
    movePaths ps p = ps.dropLast ++ [lastPath ++ [p]] := by
  have hne : ps ≠ [] := by
    rintro rfl
    simp at h
  unfold movePaths
  rw [h]
  exact set_last_eq ps (lastPath ++ [p]) hne

/-- handleExportDrawing never changes the game state, in any of its
branches. -/
lemma handleExportDrawing_state (env : ExportEnv) (s : GameState) :
    (handleExportDrawing env s).1 = s := by
  simp only [handleExportDrawing]
  split_ifs <;> rfl

/-- Claim C7: drawPaths clears the surface first; with a nonempty path list
it then sets the fixed color, the given width and round caps and joins and
draws each path; the path-building commands are exactly the per-path
polylines, a path with fewer than 2 points emits nothing, a path with at
least 2 points emits one beginPath, a moveTo its first point, a lineTo for
each later point in order and one stroke, an empty drawing emits only the
clear, and a single one-point stroke emits no path-building command. -/
theorem drawPaths_spec (paths : List (List Point)) (w : Int) :
    (drawPaths paths w).head? = some CanvasOp.clearRect ∧
    (paths ≠ [] →
      drawPaths paths w =
        CanvasOp.clearRect ::
        CanvasOp.setStrokeStyle "#0f62fe" ::
        CanvasOp.setLineWidth w ::
        CanvasOp.setLineCap "round" ::
        CanvasOp.setLineJoin "round" ::
        paths.flatMap strokeOps) ∧
    ((drawPaths paths w).filter (fun c => c.isPathCmd) = paths.flatMap strokeOps) ∧
    (∀ path, path.length < 2 → strokeOps path = []) ∧
    (∀ p0 p1 rest, strokeOps (p0 :: p1 :: rest) =
        CanvasOp.beginPath :: CanvasOp.moveTo p0 ::
          ((p1 :: rest).map CanvasOp.lineTo ++ [CanvasOp.stroke])) ∧
    drawPaths [] w = [CanvasOp.clearRect] ∧
    (∀ p, (drawPaths [[p]] w).filter (fun c => c.isPathCmd) = []) := by
  refine ⟨rfl, ?_, ?_, ?_, fun p0 p1 rest => rfl, rfl, fun p => rfl⟩
  · intro hne
    simp only [drawPaths]
    rw [if_neg (by simpa using hne)]
  · by_cases hne : paths = []
    · subst hne
      rfl
    · simp only [drawPaths]
      rw [if_neg (by simpa using hne)]
      simp only [List.filter_cons]
      norm_num [CanvasOp.isPathCmd]
      intro a x hx hax
      exact strokeOps_isPathCmd x a hax
  · intro path hlen
    match path with
    | [] => rfl
    | [_] => rfl
    | p0 :: p1 :: rest =>
        simp only [List.length_cons] at hlen
        omega

/-- Claim C7 witness: the conclusion instantiated at a concrete two-point
drawing and width 5, with the nonemptiness hypothesis discharged. -/
theorem drawPaths_spec_witness :
    drawPaths [[{ x := 0, y := 0 }, { x := 1, y := 1 }]] 5 =
      CanvasOp.clearRect ::
      CanvasOp.setStrokeStyle "#0f62fe" ::
      CanvasOp.setLineWidth 5 ::
      CanvasOp.setLineCap "round" ::
      CanvasOp.setLineJoin "round" ::
      ([[{ x := 0, y := 0 }, { x := 1, y := 1 }]].flatMap strokeOps) :=
  (drawPaths_spec [[{ x := 0, y := 0 }, { x := 1, y := 1 }]] 5).2.1 (by decide)

/-- Claim C8: handleExportDrawing leaves the whole game state unchanged in
every branch, including every failure branch, and never raises a
user-visible error. -/
theorem exportDrawing_frame (env : ExportEnv) (s : GameState) :
    (handleExportDrawing env s).1 = s ∧ (handleExportDrawing env s).2.2 = false := by
  refine ⟨handleExportDrawing_state env s, ?_⟩
  simp only [handleExportDrawing]
  split_ifs <;> rfl

/-- Claim C9: a pointer move on an empty drawing leaves it empty, and a
pointer move during an active drag of a round that is not over appends
exactly one point to the last stroke, keeping the number of strokes and all
earlier strokes unchanged. -/
theorem pointerMove_spec (point : Point) (s : GameState) :
    (s.paths = [] → (handlePointerMove point s).paths = []) ∧
    (s.isDrawing = true → s.isRoundOver = false →
      ∀ lastPath, s.paths.getLast? = some lastPath →
        (handlePointerMove point s).paths = s.paths.dropLast ++ [lastPath ++ [point]] ∧
        (handlePointerMove point s).paths.length = s.paths.length ∧
        (handlePointerMove point s).paths.dropLast = s.paths.dropLast ∧
        (handlePointerMove point s).paths.getLast? = some (lastPath ++ [point])) := by
  constructor
  · intro h
    simp only [handlePointerMove]
    split_ifs
    · exact h
    · simp [movePaths, h]
  · intro hD hO lastPath hL
    have hne : s.paths ≠ [] := by
      rintro hnil
      rw [hnil] at hL
      simp at hL
    have hstep : (handlePointerMove point s).paths = s.paths.dropLast ++ [lastPath ++ [point]] := by
      simp only [handlePointerMove, hD, hO]
      norm_num
      exact movePaths_eq s.paths lastPath point hL
    refine ⟨hstep, ?_, ?_, ?_⟩
    · rw [hstep]
      simp only [List.length_append, List.length_dropLast, List.length_singleton]
      have hpos : 0 < s.paths.length := List.length_pos.mpr hne
      omega
    · rw [hstep]
      exact List.dropLast_concat
    · rw [hstep]
      exact List.getLast?_concat _

/-- Claim C9 witness: the conclusion at the concrete dragging state sDrag
with a single one-point stroke. -/
theorem pointerMove_spec_witness :
    (handlePointerMove { x := 1, y := 1 } sDrag).paths =
        sDrag.paths.dropLast ++ [[{ x := 0, y := 0 }] ++ [{ x := 1, y := 1 }]] ∧
    (handlePointerMove { x := 1, y := 1 } sDrag).paths.length = sDrag.paths.length ∧
    (handlePointerMove { x := 1, y := 1 } sDrag).paths.dropLast = sDrag.paths.dropLast ∧
    (handlePointerMove { x := 1, y := 1 } sDrag).paths.getLast? =
        some ([{ x := 0, y := 0 }] ++ [{ x := 1, y := 1 }]) :=
  (pointerMove_spec { x := 1, y := 1 } sDrag).2 rfl rfl [{ x := 0, y := 0 }] rfl

/-- Claim C4: within a round, every operation other than newRound leaves
guessesLeft unchanged or strictly smaller and never drives it below 0, a
round that is over stays over, and a round that is not over becomes over by
exactly one event: an accepted checkGuess click whose guess equals the
target or whose decrement reaches 0. -/
theorem step_round_invariants (op : Op) (s : GameState)
    (hop : ∀ r : ℚ, op ≠ Op.newRound r) :
    (step op s).guessesLeft ≤ s.guessesLeft ∧
    (0 ≤ s.guessesLeft → 0 ≤ (step op s).guessesLeft) ∧
    (s.isRoundOver = true → (step op s).isRoundOver = true) ∧
    (s.isRoundOver = false →
      ((step op s).isRoundOver = true ↔
        (op = Op.checkGuess ∧ s.hasDrawnInRound = true ∧ s.guessesLeft ≠ 0 ∧
          (s.guessStrokeWidth = s.targetStrokeWidth ∨ s.guessesLeft - 1 = 0)))) := by
  cases op with
  | newRound r => exact absurd rfl (hop r)
  | setGuess v =>
      simp only [step, clickSetGuess]
      split_ifs with hO <;> simp_all
  | clearDrawing =>
      simp only [step, clickClearDrawing, handleClearDrawing]
      split_ifs with hO <;> simp_all
  | checkGuess =>
      by_cases hG : s.isRoundOver = true ∨ s.hasDrawnInRound = false ∨ s.guessesLeft = 0
      · simp only [step, clickCheckGuess, if_pos hG]
        refine ⟨le_refl _, fun h => h, fun h => h, fun hO => ?_⟩
        constructor
        · intro hc
          rw [hO] at hc
          cases hc
        · rintro ⟨-, hD, hL, -⟩
          rcases hG with h1 | h2 | h3
          · rw [hO] at h1
            cases h1
          · rw [hD] at h2
            cases h2
          · exact absurd h3 hL
      · push_neg at hG
        obtain ⟨hO2, hD2, hL2⟩ := hG
        have hO3 : s.isRoundOver = false := by
          cases h : s.isRoundOver
          · rfl
          · exact absurd h hO2
        have hD3 : s.hasDrawnInRound = true := by
          cases h : s.hasDrawnInRound
          · exact absurd h hD2
          · rfl
        simp only [step, clickCheckGuess]
        rw [if_neg (by simp [hO3, hD3, hL2])]
        by_cases hEq : s.guessStrokeWidth = s.targetStrokeWidth
        · simp only [handleCheckGuess, if_pos hEq]
          refine ⟨le_refl _, fun h => h, fun _ => by trivial, fun _ => ?_⟩
          constructor
          · intro _
            exact ⟨by trivial, hD3, hL2, Or.inl hEq⟩
          · intro _
            trivial
        · simp only [handleCheckGuess, if_neg hEq]
          by_cases h0 : s.guessesLeft - 1 = 0
          · rw [if_pos h0]
            refine ⟨?_, fun h => ?_, fun _ => by trivial, fun _ => ?_⟩
            · show s.guessesLeft - 1 ≤ s.guessesLeft
              omega
            · show (0 : ℤ) ≤ s.guessesLeft - 1
              omega
            · constructor
              · intro _
                exact ⟨by trivial, hD3, hL2, Or.inr h0⟩
              · intro _
                trivial
          · rw [if_neg h0]
            by_cases hgt : s.guessStrokeWidth > s.targetStrokeWidth
            · rw [if_pos hgt]
              refine ⟨?_, fun h => ?_, fun h => ?_, fun _ => ?_⟩
              · show s.guessesLeft - 1 ≤ s.guessesLeft
                omega
              · show (0 : ℤ) ≤ s.guessesLeft - 1
                omega
              · have h2 : s.isRoundOver = true := h
                rw [hO3] at h2
                cases h2
              · constructor
                · intro h
                  have h2 : s.isRoundOver = true := h
                  rw [hO3] at h2
                  cases h2
                · rintro ⟨-, -, -, hor⟩
                  rcases hor with he | hz
                  · exact absurd he hEq
                  · exact absurd hz h0
            · rw [if_neg hgt]
              refine ⟨?_, fun h => ?_, fun h => ?_, fun _ => ?_⟩
              · show s.guessesLeft - 1 ≤ s.guessesLeft
                omega
              · show (0 : ℤ) ≤ s.guessesLeft - 1
                omega
              · have h2 : s.isRoundOver = true := h
                rw [hO3] at h2
                cases h2
              · constructor
                · intro h
                  have h2 : s.isRoundOver = true := h
                  rw [hO3] at h2
                  cases h2
                · rintro ⟨-, -, -, hor⟩
                  rcases hor with he | hz
                  · exact absurd he hEq
                  · exact absurd hz h0
  | exportDrawing env =>
      have hs := handleExportDrawing_state env s
      simp only [step, hs]
      simp_all
  | pointerDown p =>
      simp only [step, handlePointerDown]
      split_ifs with hO <;> simp_all
  | pointerMove p =>
      simp only [step, handlePointerMove]
      split_ifs with hO <;> simp_all
  | pointerUp =>
      simp only [step, handlePointerUp]
      split_ifs with hO <;> simp_all

/-- Claim C4 witness: the conclusion at the concrete operation checkGuess
and the concrete state sWin, with the not-newRound hypothesis
discharged. -/
theorem step_round_invariants_witness :
    (step Op.checkGuess sWin).guessesLeft ≤ sWin.guessesLeft ∧
    (0 ≤ sWin.guessesLeft → 0 ≤ (step Op.checkGuess sWin).guessesLeft) ∧
    (sWin.isRoundOver = true → (step Op.checkGuess sWin).isRoundOver = true) ∧
    (sWin.isRoundOver = false →
      ((step Op.checkGuess sWin).isRoundOver = true ↔
        (Op.checkGuess = Op.checkGuess ∧ sWin.hasDrawnInRound = true ∧
          sWin.guessesLeft ≠ 0 ∧
          (sWin.guessStrokeWidth = sWin.targetStrokeWidth ∨
            sWin.guessesLeft - 1 = 0)))) :=
  step_round_invariants Op.checkGuess sWin (fun _ h => Op.noConfusion h)

/-- Claim C10: winCount never decreases under any operation, and whenever
it changes the operation was an accepted checkGuess click with the guess
equal to the target, and the change is exactly plus 1. -/
theorem step_winCount_monotone (op : Op) (s : GameState) :
    s.winCount ≤ (step op s).winCount ∧
    ((step op s).winCount = s.winCount ∨
      ((step op s).winCount = s.winCount + 1 ∧ op = Op.checkGuess ∧
        s.guessStrokeWidth = s.targetStrokeWidth)) := by
  cases op with
  | newRound r =>
      exact ⟨le_refl _, Or.inl rfl⟩
  | setGuess v =>
      simp only [step, clickSetGuess]
      split_ifs <;> exact ⟨le_refl _, Or.inl rfl⟩
  | clearDrawing =>
      simp only [step, clickClearDrawing, handleClearDrawing]
      split_ifs <;> exact ⟨le_refl _, Or.inl rfl⟩
  | checkGuess =>
      simp only [step, clickCheckGuess]
      by_cases hG : s.isRoundOver = true ∨ s.hasDrawnInRound = false ∨ s.guessesLeft = 0
      · rw [if_pos hG]
        exact ⟨le_refl _, Or.inl rfl⟩
      · rw [if_neg hG]
        by_cases hEq : s.guessStrokeWidth = s.targetStrokeWidth
        · simp only [handleCheckGuess, if_pos hEq]
          refine ⟨?_, Or.inr ⟨by trivial, by trivial, hEq⟩⟩
          show s.winCount ≤ s.winCount + 1
          omega
        · simp only [handleCheckGuess, if_neg hEq]
          by_cases h0 : s.guessesLeft - 1 = 0
          · rw [if_pos h0]
            exact ⟨le_refl _, Or.inl rfl⟩
          · rw [if_neg h0]
            by_cases hgt : s.guessStrokeWidth > s.targetStrokeWidth
            · rw [if_pos hgt]
              exact ⟨le_refl _, Or.inl rfl⟩
            · rw [if_neg hgt]
              exact ⟨le_refl _, Or.inl rfl⟩
  | exportDrawing env =>
      rw [step, handleExportDrawing_state env s]
      exact ⟨le_refl _, Or.inl rfl⟩
  | pointerDown p =>
      simp only [step, handlePointerDown]
      split_ifs <;> exact ⟨le_refl _, Or.inl rfl⟩
  | pointerMove p =>
      simp only [step, handlePointerMove]
      split_ifs <;> exact ⟨le_refl _, Or.inl rfl⟩
  | pointerUp =>
      simp only [step, handlePointerUp]
      split_ifs <;> exact ⟨le_refl _, Or.inl rfl⟩

end StrokeGuesser
